import Mathlib

/-!
Verification of the value representation layer of a MIR interpreter
(src/interpreter/value.rs), together with a model of the Memory
Subsystem it collaborates with.

The `Value` type and its five operations (`read_ptr`, `read_uint`,
`to_ptr`, `expect_vtable`, `expect_slice_len`) are translated directly
from `src/src/interpreter/value.rs`.  The collaborator types `Pointer`,
`PrimVal`, `Memory` and the error machinery live outside the provided
sources, so they are modelled from the specification (sections 3 and
4.1): `Memory` as an abstract record of read operations, and a concrete
byte-buffer model for the write/read round-trip property.
-/

/-- Modelled from the spec: `Pointer` (section 3) identifies an allocation
and a byte offset within it.  The sources only use its `offset` method
(advance the byte offset, here by a non-negative amount since the only
use site passes `pointer_size()`). -/
structure Pointer where
  alloc_id : Nat
  offset : Nat
deriving DecidableEq, Repr

/-- `Pointer::offset` from the source collaborator: same allocation,
offset advanced by `i` bytes. -/
def Pointer.offsetBy (p : Pointer) (i : Nat) : Pointer :=
  { alloc_id := p.alloc_id, offset := p.offset + i }

/-- Modelled from the spec: `PrimVal` (section 3) is a tagged scalar:
unsigned/signed integers of fixed widths, floating values (carried here
as raw bit patterns, no arithmetic is performed on them), booleans,
characters (`BoolV`/`CharV`, named `Bool`/`Char` in the source, renamed
here to avoid shadowing the Lean builtins), a data pointer, or a
function pointer.  The unsigned
payloads are machine values, so a `U8` payload is `< 2^8`, and so on;
the Rust widening cast `as u64` is the identity on such payloads. -/
inductive PrimVal where
  | I8 (i : Int)
  | I16 (i : Int)
  | I32 (i : Int)
  | I64 (i : Int)
  | U8 (u : Nat)
  | U16 (u : Nat)
  | U32 (u : Nat)
  | U64 (u : Nat)
  | F32 (bits : Nat)
  | F64 (bits : Nat)
  | BoolV (b : Bool)
  | CharV (c : Char)
  | Ptr (p : Pointer)
  | FnPtr (p : Pointer)
deriving DecidableEq, Repr

/-- `true` exactly on the two pointer kinds of `PrimVal` (a data pointer
or a function pointer). -/
def PrimVal.is_ptr_kind : PrimVal → Bool
  | .Ptr _ => true
  | .FnPtr _ => true
  | _ => false

/-- `true` exactly on a data pointer (`PrimVal::Ptr`). -/
def PrimVal.is_data_ptr : PrimVal → Bool
  | .Ptr _ => true
  | _ => false

/-- `true` exactly on the four unsigned-integer kinds of `PrimVal`. -/
def PrimVal.is_uint : PrimVal → Bool
  | .U8 _ => true
  | .U16 _ => true
  | .U32 _ => true
  | .U64 _ => true
  | _ => false

/-- Modelled from the spec: the target-program fault kinds the Memory
Subsystem can report (section 4.1). -/
inductive EvalError where
  | outOfBounds
  | misaligned
  | uninitRead
  | danglingPointer
  | noProvenance
  | other (n : Nat)
deriving DecidableEq, Repr

/-- Outcome of an interpreter operation.  `ok` and `fault` are the two
sides of the source type `EvalResult` (`Result<T, EvalError>`); `bug` is a
panic (`unimplemented!()` / `bug!`), i.e. an internal-invariant
violation, which the sources keep strictly apart from target-program
faults. -/
inductive EvalOutcome (α : Type) where
  | ok (a : α)
  | fault (e : EvalError)
  | bug
deriving DecidableEq, Repr

/-- Lift a `Result` returned by the Memory Subsystem into an operation
outcome (a fallible call can never be a panic). -/
def EvalOutcome.ofResult : Except EvalError α → EvalOutcome α
  | .ok a => .ok a
  | .error e => .fault e

/-- Modelled from the spec: the interface of the Memory Subsystem
(section 4.1) as used by `value.rs`: a pointer read, a sized unsigned
read, a machine-word unsigned read, and the target pointer width.
The reads are immutable (they return no updated memory). -/
structure Memory where
  read_ptr : Pointer → Except EvalError Pointer
  read_uint : Pointer → Nat → Except EvalError Nat
  read_usize : Pointer → Except EvalError Nat
  pointer_size : Nat

/-- `Value` from `src/src/interpreter/value.rs`: a single self-contained
value, either referring to a block of memory inside an allocation
(`ByRef`), a primitive value held directly outside any allocation
(`ByVal`), or a pair of primitive values (`ByValPair`). -/
inductive Value where
  | ByRef (p : Pointer)
  | ByVal (v : PrimVal)
  | ByValPair (a b : PrimVal)
deriving DecidableEq, Repr

/-- `Value::read_ptr` from `value.rs`: `ByRef(ptr)` delegates to
`mem.read_ptr(ptr)`; `ByVal(Ptr)` and `ByVal(FnPtr)` return the pointer
directly; everything else panics (`unimplemented!()`). -/
def Value.read_ptr (v : Value) (mem : Memory) : EvalOutcome Pointer :=
  match v with
  | .ByRef ptr => .ofResult (mem.read_ptr ptr)
  | .ByVal (.Ptr ptr) => .ok ptr
  | .ByVal (.FnPtr ptr) => .ok ptr
  | .ByValPair _ _ => .bug
  | .ByVal _ => .bug

/-- `Value::read_uint` from `value.rs`: `ByRef(ptr)` delegates to
`mem.read_uint(ptr, size)`; `ByVal` holding an unsigned integer widens
it to 64 bits (`as u64`, the identity on the machine value); everything
else panics. -/
def Value.read_uint (v : Value) (mem : Memory) (size : Nat) : EvalOutcome Nat :=
  match v with
  | .ByRef ptr => .ofResult (mem.read_uint ptr size)
  | .ByVal (.U8 u) => .ok u
  | .ByVal (.U16 u) => .ok u
  | .ByVal (.U32 u) => .ok u
  | .ByVal (.U64 u) => .ok u
  | .ByValPair _ _ => .bug
  | .ByVal _ => .bug

/-- `Value::to_ptr` from `value.rs`: `ByRef(ptr)` yields the pointer;
any other variant panics (`bug!("expected pointer, got ...")`). -/
def Value.to_ptr (v : Value) : EvalOutcome Pointer :=
  match v with
  | .ByRef ptr => .ok ptr
  | _ => .bug

/-- `Value::expect_vtable` from `value.rs`: `ByRef(ptr)` reads a pointer
at `ptr.offset(mem.pointer_size())`; `ByValPair(_, Ptr(vtable))` yields
`vtable`; everything else panics. -/
def Value.expect_vtable (v : Value) (mem : Memory) : EvalOutcome Pointer :=
  match v with
  | .ByRef ptr => .ofResult (mem.read_ptr (ptr.offsetBy mem.pointer_size))
  | .ByValPair _ (.Ptr vtable) => .ok vtable
  | _ => .bug

/-- `Value::expect_slice_len` from `value.rs`: `ByRef(ptr)` reads a
machine-word unsigned integer at `ptr.offset(mem.pointer_size())`;
`ByValPair(_, U8/U16/U32/U64(len))` yields `len` widened to 64 bits;
everything else panics. -/
def Value.expect_slice_len (v : Value) (mem : Memory) : EvalOutcome Nat :=
  match v with
  | .ByRef ptr => .ofResult (mem.read_usize (ptr.offsetBy mem.pointer_size))
  | .ByValPair _ (.U8 len) => .ok len
  | .ByValPair _ (.U16 len) => .ok len
  | .ByValPair _ (.U32 len) => .ok len
  | .ByValPair _ (.U64 len) => .ok len
  | _ => .bug

/-- A concrete instance of the Memory interface, used to evaluate the
operations at concrete inputs. -/
def memEx : Memory where
  read_ptr := fun p => .ok (Pointer.mk (p.alloc_id + 1) 0)
  read_uint := fun p size => .ok (p.offset + size)
  read_usize := fun p => .ok p.offset
  pointer_size := 8

/-- Modelled from the spec: the byte storage of an allocation (section 3), at
byte granularity — `none` is an uninitialized byte, `some b` a byte
value `b < 256`. -/
def ByteBuf : Type := List (Option Nat)

/-- Little-endian encoding of an unsigned integer into `size` bytes
(the target byte order is external; this model fixes little-endian). -/
def uint_to_bytes : Nat → Nat → List Nat
  | 0, _ => []
  | size + 1, v => v % 256 :: uint_to_bytes size (v / 256)

/-- Little-endian decoding of a byte list into an unsigned integer. -/
def bytes_to_uint : List Nat → Nat
  | [] => 0
  | b :: bs => b + 256 * bytes_to_uint bs

/-- Modelled from the spec: the `write_uint` operation of the Memory Subsystem
(section 4.1) on the storage of one allocation — bounds-checked, marks the
written bytes initialized. -/
def mem_write_uint (buf : ByteBuf) (off size v : Nat) : Except EvalError ByteBuf :=
  if off + size ≤ List.length buf then
    .ok (List.take off buf ++ (uint_to_bytes size v).map some ++ List.drop (off + size) buf)
  else .error .outOfBounds

/-- Modelled from the spec: the sized `read_uint` operation of the Memory Subsystem
(section 4.1) on the storage of one allocation — bounds-checked, and a fault
(never garbage data) on any uninitialized byte in the range. -/
def mem_read_uint (buf : ByteBuf) (off size : Nat) : Except EvalError Nat :=
  if off + size ≤ List.length buf then
    let bs := (List.drop off buf).take size
    if bs.all Option.isSome then .ok (bytes_to_uint (bs.map (fun o => o.getD 0)))
    else .error .uninitRead
  else .error .outOfBounds

theorem uint_to_bytes_length (size v : Nat) : (uint_to_bytes size v).length = size := by
  induction size generalizing v with
  | zero => rfl
  | succ n ih => simp [uint_to_bytes, ih]

theorem bytes_to_uint_uint_to_bytes (size v : Nat) (hv : v < 256 ^ size) :
    bytes_to_uint (uint_to_bytes size v) = v := by
  induction size generalizing v with
  | zero =>
    have : v = 0 := Nat.lt_one_iff.mp (by simpa using hv)
    simp [this, uint_to_bytes, bytes_to_uint]
  | succ n ih =>
    have hdiv : v / 256 < 256 ^ n := by
      rw [Nat.div_lt_iff_lt_mul (by norm_num : (0:Nat) < 256)]
      calc v < 256 ^ (n + 1) := hv
        _ = 256 ^ n * 256 := pow_succ 256 n
    simp only [uint_to_bytes, bytes_to_uint, ih (v / 256) hdiv]
    exact Nat.mod_add_div v 256

theorem drop_append_front (l₁ l₂ : List α) (n : Nat) (h : l₁.length = n) :
    (l₁ ++ l₂).drop n = l₂ := by
  subst h
  exact List.drop_left _ _

theorem take_append_front (l₁ l₂ : List α) (n : Nat) (h : l₁.length = n) :
    (l₁ ++ l₂).take n = l₁ := by
  subst h
  exact List.take_left _ _

/-- Writing `size` bytes of an unsigned value in bounds, then reading
the same range back, recovers the value. -/
theorem mem_round_trip (buf : ByteBuf) (off size v : Nat)
    (hv : v < 256 ^ size) (hb : off + size ≤ List.length buf) :
    (mem_write_uint buf off size v).bind (fun b2 => mem_read_uint b2 off size)
      = .ok v := by
  have hoff : off ≤ List.length buf := le_trans (Nat.le_add_right off size) hb
  have htake : (List.take off buf).length = off := by
    simp [List.length_take, Nat.min_eq_left hoff]
  have hmap : ((uint_to_bytes size v).map some).length = size := by
    simp [uint_to_bytes_length]
  rw [mem_write_uint, if_pos hb]
  show mem_read_uint _ off size = _
  set buf2 : ByteBuf :=
    List.take off buf ++ (uint_to_bytes size v).map some ++ List.drop (off + size) buf
    with hbuf2
  have hlen2 : List.length buf2 = List.length buf := by
    rw [hbuf2]
    simp only [List.length_append, htake, hmap, List.length_drop]
    omega
  have hdrop : List.drop off buf2
      = (uint_to_bytes size v).map some ++ List.drop (off + size) buf := by
    rw [hbuf2, List.append_assoc]
    exact drop_append_front _ _ off htake
  have hslice : (List.drop off buf2).take size = (uint_to_bytes size v).map some := by
    rw [hdrop]
    exact take_append_front _ _ size hmap
  have hall : ((uint_to_bytes size v).map some).all Option.isSome = true := by
    simp [List.all_eq_true]
  rw [mem_read_uint]
  rw [if_pos (hlen2 ▸ hb)]
  simp only [hslice, hall, if_pos]
  rw [List.map_map]
  have : (fun o => Option.getD o 0) ∘ (some : Nat → Option Nat) = id := rfl
  rw [this, List.map_id, bytes_to_uint_uint_to_bytes size v hv]

/-- C1: for a by-reference value at address `A` (fat-pointer layout),
`expect_vtable` equals the pointer read of the Memory Subsystem at
`A + pointer_size()`, and `expect_slice_len` equals its machine-word
unsigned read at the same offset. -/
theorem C1_byref_metadata_reads (mem : Memory) (ptr : Pointer) :
    (Value.ByRef ptr).expect_vtable mem
        = .ofResult (mem.read_ptr (ptr.offsetBy mem.pointer_size))
    ∧ (Value.ByRef ptr).expect_slice_len mem
        = .ofResult (mem.read_usize (ptr.offsetBy mem.pointer_size)) :=
  ⟨rfl, rfl⟩

/-- C2: for a by-scalar-pair value whose second element is an unsigned
integer of width 8, 16, 32 or 64 bits, `expect_slice_len` returns that
length unchanged (zero-extension to 64 bits is the identity on the
machine value), regardless of the first element. -/
theorem C2_pair_slice_len (mem : Memory) (a : PrimVal) (len : Nat) :
    (Value.ByValPair a (.U8 len)).expect_slice_len mem = .ok len
    ∧ (Value.ByValPair a (.U16 len)).expect_slice_len mem = .ok len
    ∧ (Value.ByValPair a (.U32 len)).expect_slice_len mem = .ok len
    ∧ (Value.ByValPair a (.U64 len)).expect_slice_len mem = .ok len :=
  ⟨rfl, rfl, rfl, rfl⟩

/-- C3 counterexample: a by-scalar-pair value whose second element is a
function pointer hits the internal-invariant violation in
`expect_vtable` (the source only matches `PrimVal::Ptr` in the pair
case), so the claim that a function pointer is returned is false. -/
theorem C3_cex_fnptr_pair_faults :
    (Value.ByValPair (.U8 0) (.FnPtr ⟨0, 0⟩)).expect_vtable memEx = .bug
    ∧ (Value.ByValPair (.U8 0) (.FnPtr ⟨0, 0⟩)).expect_vtable memEx
        ≠ .ok (⟨0, 0⟩ : Pointer) :=
  ⟨rfl, by decide⟩

/-- C3 (amended): for a by-scalar-pair value, `expect_vtable` returns
the second element exactly when it is a data pointer; whenever the
second element is not a data pointer — function pointers included — it
is an internal-invariant violation. -/
theorem C3_pair_vtable_data_ptr_only :
    (∀ (mem : Memory) (a : PrimVal) (p : Pointer),
        (Value.ByValPair a (.Ptr p)).expect_vtable mem = .ok p)
    ∧ ∀ (mem : Memory) (a b : PrimVal), b.is_data_ptr = false →
        (Value.ByValPair a b).expect_vtable mem = .bug := by
  constructor
  · intro mem a p
    rfl
  · intro mem a b hb
    cases b <;> first
      | rfl
      | simp [PrimVal.is_data_ptr] at hb

theorem C3_pair_vtable_data_ptr_only_witness :
    (Value.ByValPair (.U8 1) (.U16 2)).expect_vtable memEx = .bug :=
  C3_pair_vtable_data_ptr_only.2 memEx (.U8 1) (.U16 2) (by decide)

/-- C4: `read_ptr` on a by-reference value at `A` equals the Memory
Subsystem at `A`; on a by-scalar value holding a data or
function pointer it returns that pointer directly, independently of the
memory state. -/
theorem C4_read_ptr (mem mem2 : Memory) (ptr p : Pointer) :
    (Value.ByRef ptr).read_ptr mem = .ofResult (mem.read_ptr ptr)
    ∧ (Value.ByVal (.Ptr p)).read_ptr mem = .ok p
    ∧ (Value.ByVal (.FnPtr p)).read_ptr mem = .ok p
    ∧ (Value.ByVal (.Ptr p)).read_ptr mem = (Value.ByVal (.Ptr p)).read_ptr mem2
    ∧ (Value.ByVal (.FnPtr p)).read_ptr mem = (Value.ByVal (.FnPtr p)).read_ptr mem2 :=
  ⟨rfl, rfl, rfl, rfl, rfl⟩

/-- C5: `read_uint` on a by-reference value at `A` with size `s` equals
the sized unsigned read of the Memory Subsystem with `s` bytes at `A`; on a
by-scalar value holding an unsigned integer of width 8, 16, 32 or 64
bits it returns that integer (zero-extension to 64 bits is the identity
on the machine value). -/
theorem C5_read_uint (mem : Memory) (ptr : Pointer) (s u : Nat) :
    (Value.ByRef ptr).read_uint mem s = .ofResult (mem.read_uint ptr s)
    ∧ (Value.ByVal (.U8 u)).read_uint mem s = .ok u
    ∧ (Value.ByVal (.U16 u)).read_uint mem s = .ok u
    ∧ (Value.ByVal (.U32 u)).read_uint mem s = .ok u
    ∧ (Value.ByVal (.U64 u)).read_uint mem s = .ok u :=
  ⟨rfl, rfl, rfl, rfl, rfl⟩

/-- C6: `read_ptr` on a by-scalar value holding a non-pointer scalar,
and on any by-scalar-pair value, is an internal-invariant violation
(`bug`), which is distinct from every target-program fault and from
every ordinary pointer result. -/
theorem C6_read_ptr_violation :
    (∀ (mem : Memory) (pv : PrimVal), pv.is_ptr_kind = false →
        (Value.ByVal pv).read_ptr mem = .bug)
    ∧ (∀ (mem : Memory) (a b : PrimVal), (Value.ByValPair a b).read_ptr mem = .bug)
    ∧ (∀ e : EvalError, (EvalOutcome.bug : EvalOutcome Pointer) ≠ .fault e)
    ∧ (∀ p : Pointer, (EvalOutcome.bug : EvalOutcome Pointer) ≠ .ok p) := by
  refine ⟨?_, ?_, ?_, ?_⟩
  · intro mem pv hpv
    cases pv <;> first
      | rfl
      | simp [PrimVal.is_ptr_kind] at hpv
  · intro mem a b
    rfl
  · intro e h
    cases h
  · intro p h
    cases h

theorem C6_read_ptr_violation_witness :
    (Value.ByVal (.U32 7)).read_ptr memEx = .bug :=
  C6_read_ptr_violation.1 memEx (.U32 7) (by decide)

/-- C7: `to_ptr` on a by-reference value returns its pointer; on every
by-scalar and every by-scalar-pair value it is an internal-invariant
violation, never a coerced address. -/
theorem C7_to_ptr (ptr : Pointer) (pv a b : PrimVal) :
    (Value.ByRef ptr).to_ptr = .ok ptr
    ∧ (Value.ByVal pv).to_ptr = .bug
    ∧ (Value.ByValPair a b).to_ptr = .bug :=
  ⟨rfl, rfl, rfl⟩

/-- C8: for every supported width `W ∈ {8, 16, 32, 64}`, writing an
unsigned value of width `W` to memory and reading it back with the
matching sized read (`W/8` bytes) returns the value. -/
theorem C8_write_read_round_trip (W : Nat)
    (hW : W = 8 ∨ W = 16 ∨ W = 32 ∨ W = 64)
    (buf : ByteBuf) (off v : Nat) (hv : v < 2 ^ W)
    (hb : off + W / 8 ≤ List.length buf) :
    (mem_write_uint buf off (W / 8) v).bind (fun b2 => mem_read_uint b2 off (W / 8))
      = .ok v := by
  have h256 : (256 : Nat) ^ (W / 8) = 2 ^ W := by
    rcases hW with rfl | rfl | rfl | rfl <;> decide
  exact mem_round_trip buf off (W / 8) v (h256 ▸ hv) hb

theorem C8_write_read_round_trip_witness :
    (mem_write_uint (List.replicate 16 none) 0 (32 / 8) 42).bind
        (fun b2 => mem_read_uint b2 0 (32 / 8)) = .ok 42 :=
  C8_write_read_round_trip 32 (Or.inr (Or.inr (Or.inl rfl)))
    (List.replicate 16 none) 0 42 (by decide) (by decide)

/-- C9: every Value Layer operation is observation-only and
deterministic — it returns an outcome without an updated memory (its
type takes the value and the memory immutably), and equal value and
memory inputs give equal outcomes. -/
theorem C9_observation_only (v v2 : Value) (mem mem2 : Memory) (size : Nat)
    (hv : v = v2) (hm : mem = mem2) :
    v.read_ptr mem = v2.read_ptr mem2
    ∧ v.read_uint mem size = v2.read_uint mem2 size
    ∧ v.to_ptr = v2.to_ptr
    ∧ v.expect_vtable mem = v2.expect_vtable mem2
    ∧ v.expect_slice_len mem = v2.expect_slice_len mem2 := by
  subst hv
  subst hm
  exact ⟨rfl, rfl, rfl, rfl, rfl⟩

theorem C9_observation_only_witness :
    (Value.ByRef ⟨0, 0⟩).read_ptr memEx = (Value.ByRef ⟨0, 0⟩).read_ptr memEx
    ∧ (Value.ByRef ⟨0, 0⟩).read_uint memEx 4 = (Value.ByRef ⟨0, 0⟩).read_uint memEx 4
    ∧ (Value.ByRef ⟨0, 0⟩).to_ptr = (Value.ByRef ⟨0, 0⟩).to_ptr
    ∧ (Value.ByRef ⟨0, 0⟩).expect_vtable memEx = (Value.ByRef ⟨0, 0⟩).expect_vtable memEx
    ∧ (Value.ByRef ⟨0, 0⟩).expect_slice_len memEx
        = (Value.ByRef ⟨0, 0⟩).expect_slice_len memEx :=
  C9_observation_only (Value.ByRef ⟨0, 0⟩) (Value.ByRef ⟨0, 0⟩) memEx memEx 4 rfl rfl

/-- C10: for a by-scalar value holding an unsigned integer, `read_uint`
ignores its size argument — any two sizes give the same outcome, and
the full value is returned without truncation and without fault. -/
theorem C10_read_uint_size_independent (mem : Memory) (s t u : Nat) :
    ((Value.ByVal (.U8 u)).read_uint mem s = (Value.ByVal (.U8 u)).read_uint mem t
      ∧ (Value.ByVal (.U8 u)).read_uint mem s = .ok u)
    ∧ ((Value.ByVal (.U16 u)).read_uint mem s = (Value.ByVal (.U16 u)).read_uint mem t
      ∧ (Value.ByVal (.U16 u)).read_uint mem s = .ok u)
    ∧ ((Value.ByVal (.U32 u)).read_uint mem s = (Value.ByVal (.U32 u)).read_uint mem t
      ∧ (Value.ByVal (.U32 u)).read_uint mem s = .ok u)
    ∧ ((Value.ByVal (.U64 u)).read_uint mem s = (Value.ByVal (.U64 u)).read_uint mem t
      ∧ (Value.ByVal (.U64 u)).read_uint mem s = .ok u) :=
  ⟨⟨rfl, rfl⟩, ⟨rfl, rfl⟩, ⟨rfl, rfl⟩, ⟨rfl, rfl⟩⟩
